import Mathlib

/-!
Verification development for the korea-pet-abandonment-eda repository.

The definitions below are a shallow embedding of the cleaning pipeline in
`src/clean_animals.py` (record cleaning for abandonment events, registration
records and shelter records, plus the left join of events with shelters) and
of the reporting routines in `src/analysis_model.py`.

Modelling conventions:
  * a cell of a table is `Option String` (`none` is the pandas missing
    marker `NaN`);
  * a column that may be absent from a table is `Option (Option String)`
    (outer `none` = the column does not exist);
  * the embedded raw payload (a Python dict, or a non-dict value) is
    `Option RawMap` with `RawMap` an association list;
  * numeric values produced by `pd.to_numeric(..., errors="coerce")` are
    modelled as exact rationals (`Option ℚ`), restricted to plain decimal
    literals, since no claim depends on binary floating-point rounding;
  * dates are triples of numerals with explicit calendar validity.
-/

namespace PetEda

/-- Whitespace class used by Python `str.split()` and by the regex class
`\s` (space, tab, newline, carriage return, vertical tab, form feed). -/
def isWs (c : Char) : Bool :=
  c = ' ' || c = '\t' || c = '\n' || c = '\r' || c = '\x0b' || c = '\x0c'

/-- Accumulator worker for Python `str.split()` with no separator:
split on runs of whitespace, discarding empty tokens. -/
def pySplitAux : List Char → List Char → List (List Char)
  | [], acc => if acc = [] then [] else [acc.reverse]
  | c :: cs, acc =>
    if isWs c then
      if acc = [] then pySplitAux cs [] else acc.reverse :: pySplitAux cs []
    else
      pySplitAux cs (c :: acc)

/-- Python `s.split()` on a string, as a list of character lists. -/
def pySplit (s : String) : List (List Char) := pySplitAux s.data []

/-- First two whitespace-separated tokens of a string, as produced by the
address-splitting helpers of `clean_animals.py` (`parts[0]`, `parts[1]`):
no token gives `(none, none)`, one token `(tok, none)`, two or more
`(parts[0], parts[1])`. -/
def splitTwo (s : String) : Option String × Option String :=
  match pySplit s with
  | [] => (none, none)
  | [a] => (some (String.mk a), none)
  | a :: b :: _ => (some (String.mk a), some (String.mk b))

/-- `split_sido_sigungu` from `clean_abandonments` (lines 97-104): a missing
or non-string value yields `(None, None)`, a string is whitespace-split. -/
def split_sido_sigungu (v : Option String) : Option String × Option String :=
  match v with
  | some s => splitTwo s
  | none => (none, none)

/-- A Python value that is either a string or some non-string object, used
to show which branch of `split_addr` in `clean_shelters` is reachable. -/
inductive PyVal where
  | str (s : String)
  | nonstr
deriving DecidableEq, Repr

/-- `split_addr` from `clean_shelters` (lines 201-208): non-strings give
`(None, None)`, strings are whitespace-split into the first two tokens. -/
def split_addr : PyVal → Option String × Option String
  | .str s => splitTwo s
  | .nonstr => (none, none)

/-- Split a character list at the first occurrence of `t`: returns the
characters before it and the characters after it, or `none` when `t`
does not occur. -/
def breakAt (t : Char) : List Char → Option (List Char × List Char)
  | [] => none
  | c :: cs =>
    if c = t then some ([], cs)
    else
      match breakAt t cs with
      | none => none
      | some (pre, post) => some (c :: pre, post)

theorem breakAt_post_length {t : Char} : ∀ {l pre post : List Char},
    breakAt t l = some (pre, post) → post.length < l.length := by
  intro l
  induction l with
  | nil => intro pre post h; simp [breakAt] at h
  | cons c cs ih =>
    intro pre post h
    by_cases hc : c = t
    · simp [breakAt, hc] at h
      simp [← h.2]
    · simp only [breakAt, if_neg hc] at h
      cases hb : breakAt t cs with
      | none => rw [hb] at h; simp at h
      | some p =>
        rw [hb] at h
        obtain ⟨pre2, post2⟩ := p
        simp at h
        have := ih hb
        simp [← h.2]
        omega

/-- Leftmost match of the regex `\[(.*?)\]` (the capture group), as used
for the species extraction at line 65 of `clean_animals.py`: the content
between the first `[` and the first `]` that follows it; `none` when the
pattern does not match anywhere. -/
def extractBracket : List Char → Option (List Char)
  | [] => none
  | c :: cs =>
    if c = '[' then (breakAt ']' cs).map Prod.fst
    else extractBracket cs

/-- Fuel-driven worker for `removeBracketWs`; the fuel only bounds the
recursion depth (each deletion consumes at least two characters, so the
initial fuel `l.length` is never exhausted). -/
def removeBracketWsF : Nat → List Char → List Char
  | 0, l => l
  | fuel + 1, l =>
    match l with
    | [] => []
    | c :: cs =>
      if c = '[' then
        match breakAt ']' cs with
        | some (_, post) => removeBracketWsF fuel (post.dropWhile isWs)
        | none => c :: removeBracketWsF fuel cs
      else c :: removeBracketWsF fuel cs

/-- `re.sub(r"\[.*?\]\s*", "", s)` as used for the breed at line 66 of
`clean_animals.py`: repeatedly delete the leftmost `[...]` (shortest
closing) together with the whitespace that immediately follows it. -/
def removeBracketWs (l : List Char) : List Char :=
  removeBracketWsF l.length l

/-- Fuel-driven worker for `removeParens`. -/
def removeParensF : Nat → List Char → List Char
  | 0, l => l
  | fuel + 1, l =>
    match l with
    | [] => []
    | c :: cs =>
      if c = '(' then
        match breakAt ')' cs with
        | some (_, post) => removeParensF fuel post
        | none => c :: removeParensF fuel cs
      else c :: removeParensF fuel cs

/-- `re.sub(r"\(.*?\)", "", s)` as used for the weight at line 77 of
`clean_animals.py`: repeatedly delete the leftmost `(...)` (shortest
closing parenthesis). -/
def removeParens (l : List Char) : List Char :=
  removeParensF l.length l

/-- Leftmost match of the regex `(\d{4})` (line 87 of `clean_animals.py`):
the earliest run of four consecutive digits, if any. -/
def extract4Digits : List Char → Option (List Char)
  | a :: rest =>
    match rest with
    | b :: c :: d :: _ =>
      if a.isDigit && b.isDigit && c.isDigit && d.isDigit then some [a, b, c, d]
      else extract4Digits rest
    | _ => none
  | _ => none

/-- Numeric value of a list of decimal digit characters. -/
def digitsToNat (l : List Char) : Nat :=
  l.foldl (fun n c => 10 * n + (c.toNat - 48)) 0

/-- Unsigned decimal literal (`123`, `1.5`, `1.`, `.5`) as an exact
rational; `none` when the characters are not such a literal. -/
def parseUnsigned (l : List Char) : Option ℚ :=
  let intPart := l.takeWhile Char.isDigit
  let rest := l.dropWhile Char.isDigit
  match rest with
  | [] => if intPart = [] then none else some (digitsToNat intPart : ℚ)
  | '.' :: frac =>
    if frac.all Char.isDigit && !(intPart = [] && frac = []) then
      some ((digitsToNat intPart : ℚ) + (digitsToNat frac : ℚ) / (10 ^ frac.length : ℚ))
    else none
  | _ => none

/-- Model of the numeric coercion `pd.to_numeric(..., errors="coerce")` /
`float(...)` on a single cell, restricted to optionally signed plain
decimal literals with surrounding whitespace; anything else coerces to
missing. Exact rationals stand in for floats, as no claim depends on
floating-point rounding. -/
def parseDecimal (l : List Char) : Option ℚ :=
  let t := (l.dropWhile isWs).reverse.dropWhile isWs |>.reverse
  match t with
  | '+' :: u => parseUnsigned u
  | '-' :: u => (parseUnsigned u).map (fun q => -q)
  | u => parseUnsigned u

/-- `astype(str)` on a DataFrame cell: the pandas missing marker `NaN`
becomes the literal string `"nan"`. -/
def astypeStrCell : Option String → String
  | none => "nan"
  | some s => s

/-- `astype(str)` on a value produced by `get_raw` (a Python object):
the Python `None` returned for a missing key becomes the literal string
`"None"`. -/
def astypeStrPy : Option String → String
  | none => "None"
  | some s => s

/-! ### Dates -/

/-- A calendar date. -/
structure Date where
  y : Nat
  m : Nat
  d : Nat
deriving DecidableEq, Repr

/-- Gregorian leap-year rule. -/
def isLeap (y : Nat) : Bool :=
  (y % 4 = 0 && y % 100 ≠ 0) || y % 400 = 0

/-- Number of days of month `m` in year `y`. -/
def daysInMonth (y m : Nat) : Nat :=
  if m = 2 then (if isLeap y then 29 else 28)
  else if m = 4 || m = 6 || m = 9 || m = 11 then 30
  else 31

/-- Numeric key `yyyymmdd` of a date, used to compare against the bounds
of the pandas nanosecond timestamp range. -/
def dateKey (dt : Date) : Nat := dt.y * 10000 + dt.m * 100 + dt.d

/-- Embedding of `pd.to_datetime(cell, format="%Y%m%d", errors="coerce")`
on one cell. pandas special-cases this exact format through an integer
fast path (`_attempt_YYYYMMDD`): the value is read as an integer `n` and
split as `y = n / 10000`, `m = n / 100 % 100`, `d = n % 100`; the result
is the missing marker `NaT` unless `(y, m, d)` is a valid calendar date
inside the representable nanosecond-timestamp range (midnights from
1677-09-22 through 2262-04-11). Cells that are not plain digit strings
coerce to `NaT`. -/
def parseYMD (s : String) : Option Date :=
  if s.data ≠ [] ∧ s.data.all Char.isDigit then
    let n := digitsToNat s.data
    let dt : Date := ⟨n / 10000, n / 100 % 100, n % 100⟩
    if 1 ≤ dt.m ∧ dt.m ≤ 12 ∧ 1 ≤ dt.d ∧ dt.d ≤ daysInMonth dt.y dt.m ∧
        16770922 ≤ dateKey dt ∧ dateKey dt ≤ 22620411 then
      some dt
    else none
  else none

/-- Day count of a date (days since 0000-03-01 in the proleptic Gregorian
calendar, Hinnant's civil-from-days construction specialised to the
positive years the parser can produce); only its value modulo 7 is used. -/
def dayNumber (dt : Date) : Nat :=
  let yy := if dt.m ≤ 2 then dt.y - 1 else dt.y
  let era := yy / 400
  let yoe := yy - era * 400
  let mp := (dt.m + 9) % 12
  let doy := (153 * mp + 2) / 5 + dt.d - 1
  let doe := yoe * 365 + yoe / 4 - yoe / 100 + doy
  era * 146097 + doe

/-- `Timestamp.day_name()`: the full English weekday name of a date. -/
def dayName (dt : Date) : String :=
  match dayNumber dt % 7 with
  | 0 => "Wednesday"
  | 1 => "Thursday"
  | 2 => "Friday"
  | 3 => "Saturday"
  | 4 => "Sunday"
  | 5 => "Monday"
  | _ => "Tuesday"

/-- A cell of the `happenDt` column: a raw string (as loaded from the
store), an already-parsed timestamp, or the missing marker. -/
inductive DtCell where
  | txt (s : String)
  | dt (d : Date)
  | missing
deriving DecidableEq, Repr

/-- `pd.to_datetime(..., format="%Y%m%d", errors="coerce")` on a
`happenDt` cell: strings are parsed (unparseable ones coerce to `NaT`),
already-parsed timestamps pass through unchanged, missing stays missing. -/
def parseDtCell : DtCell → DtCell
  | .txt s =>
    match parseYMD s with
    | some d => .dt d
    | none => .missing
  | .dt d => .dt d
  | .missing => .missing

/-- `.dt.month` on a cell: the month of a parsed timestamp, missing
otherwise. -/
def monthOf : DtCell → Option Nat
  | .dt d => some d.m
  | _ => none

/-- `.dt.day_name()` on a cell. -/
def weekdayOf : DtCell → Option String
  | .dt d => some (dayName d)
  | _ => none

/-- `get_season` from `clean_abandonments` (lines 125-135): missing month
gives a missing season; months 3-5 map to Spring, 6-8 to Summer, 9-11 to
Fall, and every other month to Winter. -/
def get_season (m : Option Nat) : Option String :=
  match m with
  | none => none
  | some mv =>
    if mv = 3 ∨ mv = 4 ∨ mv = 5 then some "Spring"
    else if mv = 6 ∨ mv = 7 ∨ mv = 8 then some "Summer"
    else if mv = 9 ∨ mv = 10 ∨ mv = 11 then some "Fall"
    else some "Winter"

/-! ### The abandonment-event record and `clean_abandonments` -/

/-- The embedded raw payload of a record: an association list standing for
the Python dict stored in the `raw` column (values are their string
renderings; dict keys are unique, lookup takes the first hit). -/
abbrev RawMap := List (String × String)

/-- `dict.get(key)` on a raw payload. -/
def rawLookup (m : RawMap) (k : String) : Option String :=
  (m.find? (fun p => p.1 == k)).map Prod.snd

/-- `get_raw` from `clean_animals.py` (lines 43-46 / 149-152 / 215-218):
look a key up in the raw payload, `None` when the payload is not a dict
or the key is absent. -/
def rawGet (raw : Option RawMap) (k : String) : Option String :=
  raw.bind (fun m => rawLookup m k)

/-- An abandonment-event record, restricted to the columns that
`clean_abandonments` reads or writes. `sidoCol` and `ageRawCol` model
columns whose very existence the code branches on (`Option` of a cell);
the remaining source columns (`raw`, `sexCd`, `neuterYn`, `sigungu`,
`happenDt`) are accessed unconditionally and hence always present. -/
structure AbRow where
  happenDt : DtCell
  raw : Option RawMap
  sexCd : Option String
  neuterYn : Option String
  sigungu : Option String
  sidoCol : Option (Option String)
  ageRawCol : Option (Option String)
  noticeSdt : Option Date
  noticeEdt : Option Date
  updateDt : Option Date
  species : Option String
  breed : Option String
  sex : Option String
  neuter : Option Nat
  weight : Option ℚ
  birthYear : Option Int
  age : Option Int
  month : Option Nat
  weekday : Option String
  season : Option String
deriving DecidableEq, Repr

/-- Species extraction (line 65): regex-extract the first bracketed token
of `raw["kindFullNm"]`; missing payload, missing key or no match give the
missing marker. -/
def speciesOf (raw : Option RawMap) : Option String :=
  (rawGet raw "kindFullNm").bind (fun s => (extractBracket s.data).map String.mk)

/-- Breed extraction (line 66): delete every `[...]` plus following
whitespace from `raw["kindFullNm"]`. -/
def breedOf (raw : Option RawMap) : Option String :=
  (rawGet raw "kindFullNm").map (fun s => String.mk (removeBracketWs s.data))

/-- Sex remapping (line 69): `M`/`F`/`Q` map to labels, anything else
(including missing) to the missing marker. -/
def sexOf (c : Option String) : Option String :=
  c.bind (fun v =>
    if v = "M" then some "Male"
    else if v = "F" then some "Female"
    else if v = "Q" then some "Unknown"
    else none)

/-- Neuter remapping (line 70): `Y` to 1, `N` to 0, anything else
(including the explicit `U`) to the missing marker. -/
def neuterOf (c : Option String) : Option Nat :=
  c.bind (fun v => if v = "Y" then some 1 else if v = "N" then some 0 else none)

/-- Weight cleaning (lines 73-80): `astype(str)` on the raw value, strip
every parenthesized group, turn the empty string into the missing marker,
then coerce to a number. -/
def weightOf (raw : Option RawMap) : Option ℚ :=
  let w := removeParens (astypeStrPy (rawGet raw "weight")).data
  if w = [] then none else parseDecimal w

/-- Birth-year extraction (lines 83-91): when the `ageRaw` column exists,
`astype(str)` the cell and regex-extract the first four consecutive
digits, coerced to a number; when the column is absent, missing. -/
def birthYearOf (ageRawCol : Option (Option String)) : Option Int :=
  match ageRawCol with
  | none => none
  | some c => (extract4Digits (astypeStrCell c).data).map (fun ds => (digitsToNat ds : Int))

/-- `fillna` composition for `sido` (lines 111-114): when the `sido`
column is absent the derived value is used outright; otherwise existing
non-missing cells are kept and only missing cells are filled with the
derived value. -/
def fillSido (sidoCol : Option (Option String)) (tmp : Option String) : Option String :=
  match sidoCol with
  | none => tmp
  | some none => tmp
  | some (some v) => some v

/-- `Series.where` composition for `sigungu` (line 117): the derived
second token is used whenever it exists, the original cell only when the
derivation produced nothing. -/
def chooseSigungu (tmp : Option String) (orig : Option String) : Option String :=
  match tmp with
  | some v => some v
  | none => orig

/-- The `sido` value produced by lines 106-114 from the column state and
the composite `sigungu` cell. -/
def sidoOf (sidoCol : Option (Option String)) (sg : Option String) : Option String :=
  fillSido sidoCol (split_sido_sigungu sg).1

/-- The `sigungu` value produced by lines 106-117. -/
def sigunguOf (sg : Option String) : Option String :=
  chooseSigungu (split_sido_sigungu sg).2 sg

/-- Row-level embedding of `clean_abandonments` (lines 35-140).
`currentYear` stands for `datetime.now().year`; `pfree` stands for the
free-format `pd.to_datetime(..., errors="coerce")` used only for the
`updTm` raw field (its exact parsing rules are irrelevant to every
claim, so it is carried as a parameter). -/
def cleanAbRow (currentYear : Int) (pfree : Option String → Option Date) (r : AbRow) : AbRow :=
  { r with
    happenDt := parseDtCell r.happenDt
    noticeSdt := (rawGet r.raw "noticeSdt").bind parseYMD
    noticeEdt := (rawGet r.raw "noticeEdt").bind parseYMD
    updateDt := pfree (rawGet r.raw "updTm")
    species := speciesOf r.raw
    breed := breedOf r.raw
    sex := sexOf r.sexCd
    neuter := neuterOf r.neuterYn
    weight := weightOf r.raw
    birthYear := birthYearOf r.ageRawCol
    age := (birthYearOf r.ageRawCol).map (fun b => currentYear - b)
    sidoCol := some (sidoOf r.sidoCol r.sigungu)
    sigungu := sigunguOf r.sigungu
    month := monthOf (parseDtCell r.happenDt)
    weekday := weekdayOf (parseDtCell r.happenDt)
    season := get_season (monthOf (parseDtCell r.happenDt)) }

/-! ### `clean_registrations` -/

/-- A registration record before cleaning: the raw payload plus the seven
optional canonical columns (outer `none` = column absent from the table). -/
structure RegRow where
  raw : Option RawMap
  sidoCol : Option (Option String)
  sigunguCol : Option (Option String)
  birthYearCol : Option (Option String)
  rfidTypeCol : Option (Option String)
  kindCol : Option (Option String)
  speciesCol : Option (Option String)
  countCol : Option (Option String)
deriving DecidableEq, Repr

/-- A cleaned registration record. -/
structure RegOut where
  sido : Option String
  sigungu : Option String
  birthYear : Option ℚ
  rfidType : Option String
  kind : Option String
  species : Option String
  count : Option ℚ
deriving DecidableEq, Repr

/-- Numeric coercion of a cell. -/
def parseNumCell (c : Option String) : Option ℚ :=
  c.bind (fun s => parseDecimal s.data)

/-- Row-level embedding of `clean_registrations` (lines 145-189): each
canonical column is kept when present (numeric ones re-coerced) and
backfilled from the raw payload when the column is wholly absent. -/
def clean_registrations_row (r : RegRow) : RegOut :=
  { sido := match r.sidoCol with
      | some c => c
      | none => rawGet r.raw "CTPV"
    sigungu := match r.sigunguCol with
      | some c => c
      | none => rawGet r.raw "SGG"
    birthYear := match r.birthYearCol with
      | some c => parseNumCell c
      | none => parseNumCell (rawGet r.raw "BRDT")
    rfidType := match r.rfidTypeCol with
      | some c => c
      | none => rawGet r.raw "RFID_SE"
    kind := match r.kindCol with
      | some c => c
      | none => rawGet r.raw "LVSTCK_KND"
    species := match r.speciesCol with
      | some c => c
      | none => rawGet r.raw "SPCS"
    count := match r.countCol with
      | some c => parseNumCell c
      | none => parseNumCell (rawGet r.raw "CNT") }

/-! ### `clean_shelters` -/

/-- A shelter record before cleaning. -/
structure ShRow where
  careNm : Option String
  careAddr : Option String
  raw : Option RawMap
  latCol : Option (Option String)
  lngCol : Option (Option String)
  openDateCol : Option (Option String)
deriving DecidableEq, Repr

/-- A cleaned shelter record. After line 199 the `careAddr` column holds
genuine strings only, hence the field type `String`. -/
structure ShOut where
  careNm : Option String
  careAddr : String
  sido : Option String
  sigungu : Option String
  lat : Option String
  lng : Option String
  openDate : Option Date
deriving DecidableEq, Repr

/-- Row-level embedding of `clean_shelters` (lines 194-235): `careAddr`
is first coerced with `astype(str)` (so a missing cell becomes the
literal string `"nan"`), and `split_addr` is therefore always applied to
a string — its non-string branch is unreachable. `pfree` stands for the
free-format date parse used for `openDate`. -/
def clean_shelters_row (pfree : Option String → Option Date) (r : ShRow) : ShOut :=
  let addr := astypeStrCell r.careAddr
  let sp := split_addr (PyVal.str addr)
  { careNm := r.careNm
    careAddr := addr
    sido := sp.1
    sigungu := sp.2
    lat := match r.latCol with
      | some c => c
      | none => rawGet r.raw "lat"
    lng := match r.lngCol with
      | some c => c
      | none => rawGet r.raw "lng"
    openDate := match r.openDateCol with
      | some c => pfree c
      | none => pfree (rawGet r.raw "dsignationDate") }

/-! ### `merge_abandonments_with_shelters` -/

/-- The shelter attributes projected into the join (line 243). -/
structure ShAttrs where
  lat : Option String
  lng : Option String
  careAddr : Option String
  divisionNm : Option String
  sido : Option String
  sigungu : Option String
deriving DecidableEq, Repr

/-- A row of the shelter table as seen by the join: its key plus the
projected attributes. -/
structure ShJoinRow where
  careNm : Option String
  attrs : ShAttrs
deriving DecidableEq, Repr

/-- The shelter rows whose `careNm` key equals `k` (pandas merges match
missing keys with missing keys, so plain `Option` equality is the join
predicate). -/
def shMatches (k : Option String) (sh : List ShJoinRow) : List ShJoinRow :=
  sh.filter (fun s => s.careNm == k)

/-- Embedding of `ab.merge(sh[...], on="careNm", how="left")` (lines
240-249), generic in the event-row type: every event row produces one
output row per matching shelter row, in order, or a single row with all
shelter attributes missing when no shelter row matches. -/
def mergeLeft {α : Type} (key : α → Option String) :
    List α → List ShJoinRow → List (α × Option ShAttrs)
  | [], _ => []
  | a :: rest, sh =>
    (match shMatches (key a) sh with
     | [] => [(a, none)]
     | ms => ms.map (fun s => (a, some s.attrs))) ++ mergeLeft key rest sh

/-! ### The Analyzer routines of `analysis_model.py`

Each routine is modelled by the columns it touches, in access order: the
result is `Except.error c` when the first absent column `c` is hit (a
pandas `KeyError` aborting the routine) and `Except.ok tags` when the
routine runs to completion, where `tags` lists the report sections (and
skip notices) it prints. -/

/-- Run one block that accesses the columns `req` in order and prints the
sections `tags`: the first absent column raises a `KeyError`. -/
def runSection (cols : List String) (req : List String) (tags : List String) :
    Except String (List String) :=
  match req.find? (fun c => !(cols.contains c)) with
  | some c => .error c
  | none => .ok tags

/-- `analyze_basic_patterns` (lines 43-57): unconditionally accesses
`processState`, `species`, `sex`, `neuter`, `age`. -/
def analyze_basic_patterns (cols : List String) : Except String (List String) :=
  runSection cols ["processState", "species", "sex", "neuter", "age"]
    ["processState-dist", "species-dist", "sex-dist", "neuter-dist", "age-describe"]

/-- `analyze_time_series` (lines 129-149): the yearly block runs only
when a `year` column exists, otherwise a skip notice is printed; the
monthly block accesses `month`, `uid`, `processState` unconditionally. -/
def analyze_time_series (cols : List String) : Except String (List String) :=
  let yearPart : Except String (List String) :=
    if cols.contains "year" then
      runSection cols ["uid", "processState"] ["yearly-counts", "year-state-counts"]
    else .ok ["year-skip-notice"]
  match yearPart with
  | .error c => .error c
  | .ok ys =>
    match runSection cols ["month", "uid", "processState"]
        ["monthly-counts", "month-state-counts"] with
    | .error c => .error c
    | .ok ms => .ok (ys ++ ms)

/-- `analyze_spatial` (lines 154-167): unconditionally accesses `sido`,
`uid`, `sigungu`, `processState`. -/
def analyze_spatial (cols : List String) : Except String (List String) :=
  runSection cols ["sido", "uid", "sigungu", "processState"]
    ["sido-top10", "sigungu-top20", "sido-state-crosstab"]

/-- `analyze_correlations` (lines 172-191): the numeric-correlation block
is skipped with a notice when none of `age`, `weight`, `month` exists;
the crosstab block accesses `sex`, `processState`, `neuter`, `species`,
`season` unconditionally. -/
def analyze_correlations (cols : List String) : Except String (List String) :=
  let numAvail := ["age", "weight", "month"].filter (fun c => cols.contains c)
  let head := if numAvail.isEmpty then ["corr-skip-notice"] else ["numeric-corr"]
  match runSection cols ["sex", "processState", "neuter", "species", "season"]
      ["sex-state-crosstab", "neuter-state-crosstab", "species-season-crosstab"] with
  | .error c => .error c
  | .ok ts => .ok (head ++ ts)

/-- `build_and_evaluate_model` (lines 62-124): selects the eleven feature
columns and the target in one subscript (all absences are fatal; the
error reports the first absent column). -/
def build_and_evaluate_model (cols : List String) : Except String (List String) :=
  runSection cols
    ["species", "breed", "sex", "neuter", "age", "weight", "month", "season",
     "weekday", "sido", "sigungu", "processState"]
    ["model-metrics"]

/-! ### Heap model for the copy discipline of the cleaners

`clean_abandonments`, `clean_registrations` and `clean_shelters` all
start with `df = df.copy()` (lines 36, 146, 195) and perform every
subsequent column assignment (and the one `inplace=True` drop) on that
copy. The heap below makes the aliasing explicit: tables live at
numbered references, `copy()` allocates a fresh reference, and each
mutating statement writes through the local reference only. -/

/-- A heap of tables. -/
structure Heap (α : Type) where
  cells : List α
deriving DecidableEq, Repr

/-- Dereference. -/
def Heap.read {α : Type} (h : Heap α) (r : Nat) : Option α := h.cells[r]?

/-- `df.copy()`: allocate a fresh reference holding the value. -/
def Heap.alloc {α : Type} (h : Heap α) (a : α) : Heap α × Nat :=
  (⟨h.cells ++ [a]⟩, h.cells.length)

/-- An in-place mutation of the table at `r`. -/
def Heap.write {α : Type} (h : Heap α) (r : Nat) (a : α) : Heap α :=
  ⟨h.cells.set r a⟩

/-- Run a sequence of in-place mutation steps against the table at `r`. -/
def applySteps {α : Type} : List (α → α) → Heap α → Nat → Heap α
  | [], h, _ => h
  | f :: fs, h, r =>
    applySteps fs
      (match h.read r with
       | some t => h.write r (f t)
       | none => h) r

/-- The common shape of the three cleaners: copy the argument table to a
fresh reference, mutate only that copy, and return its reference. -/
def cleanViaCopy {α : Type} [Inhabited α] (steps : List (α → α)) (h : Heap α) (src : Nat) :
    Heap α × Nat :=
  let p := h.alloc ((h.read src).getD default)
  (applySteps steps p.1 p.2, p.2)

/-- Table-level `clean_abandonments`. -/
def clean_abandonments_table (currentYear : Int) (pfree : Option String → Option Date)
    (t : List AbRow) : List AbRow :=
  t.map (cleanAbRow currentYear pfree)

/-- Table-level `clean_registrations`. -/
def clean_registrations_table (t : List RegRow) : List RegOut :=
  t.map clean_registrations_row

/-- Table-level `clean_shelters`. -/
def clean_shelters_table (pfree : Option String → Option Date) (t : List ShRow) : List ShOut :=
  t.map (clean_shelters_row pfree)

/-- `clean_abandonments` as a heap program: copy, then mutate the copy. -/
def clean_abandonments_prog (currentYear : Int) (pfree : Option String → Option Date)
    (h : Heap (List AbRow)) (src : Nat) : Heap (List AbRow) × Nat :=
  cleanViaCopy [clean_abandonments_table currentYear pfree] h src

/-- `clean_registrations` as a heap program over a sum state (input
tables and output tables share the heap). -/
def clean_registrations_prog (h : Heap (List RegRow × List RegOut)) (src : Nat) :
    Heap (List RegRow × List RegOut) × Nat :=
  cleanViaCopy [fun p => (p.1, clean_registrations_table p.1)] h src

/-- `clean_shelters` as a heap program over a sum state. -/
def clean_shelters_prog (pfree : Option String → Option Date)
    (h : Heap (List ShRow × List ShOut)) (src : Nat) : Heap (List ShRow × List ShOut) × Nat :=
  cleanViaCopy [fun p => (p.1, clean_shelters_table pfree p.1)] h src

/-! ### Concrete sample data used in closed statements -/

/-- An all-missing abandonment row, base for concrete examples. -/
def abRow0 : AbRow :=
  { happenDt := .missing, raw := none, sexCd := none, neuterYn := none,
    sigungu := none, sidoCol := none, ageRawCol := none, noticeSdt := none,
    noticeEdt := none, updateDt := none, species := none, breed := none,
    sex := none, neuter := none, weight := none, birthYear := none, age := none,
    month := none, weekday := none, season := none }

/-- A trivial instantiation of the free-format date parser parameter. -/
def pfree0 : Option String → Option Date := fun _ => none

/-- An all-missing shelter-attribute projection. -/
def shAttrs0 : ShAttrs :=
  { lat := none, lng := none, careAddr := none, divisionNm := none,
    sido := none, sigungu := none }

/-- A registration row with no optional canonical column and a raw
payload carrying the four backfill keys. -/
def regRow7 : RegRow :=
  { raw := some [("CTPV", "Seoul"), ("SGG", "Gangnam"), ("BRDT", "2016"), ("CNT", "2")],
    sidoCol := none, sigunguCol := none, birthYearCol := none, rfidTypeCol := none,
    kindCol := none, speciesCol := none, countCol := none }

/-- A shelter row whose `careAddr` cell is missing. -/
def shRow0 : ShRow :=
  { careNm := none, careAddr := none, raw := none, latCol := none,
    lngCol := none, openDateCol := none }

/-- Formalisation of the phrase used by claim C6: an 8-digit string in
`YYYYMMDD` form denoting a valid calendar date. Stated from the claim's
words (not from the code) so the two can be compared. -/
def specYYYYMMDDForm (s : String) : Prop :=
  s.data.length = 8 ∧ s.data.all Char.isDigit = true ∧
  1 ≤ digitsToNat s.data / 100 % 100 ∧ digitsToNat s.data / 100 % 100 ≤ 12 ∧
  1 ≤ digitsToNat s.data % 100 ∧
  digitsToNat s.data % 100 ≤ daysInMonth (digitsToNat s.data / 10000) (digitsToNat s.data / 100 % 100)

instance (s : String) : Decidable (specYYYYMMDDForm s) := by
  unfold specYYYYMMDDForm
  infer_instance

/-! ### Lemmas about the string helpers -/

theorem data_mk (l : List Char) : (String.mk l).data = l := rfl

theorem mk_data (s : String) : String.mk s.data = s := rfl

theorem not_mem_dropWhile {a : Char} {p : Char → Bool} {l : List Char} (h : a ∉ l) :
    a ∉ l.dropWhile p :=
  fun hm => h ((List.dropWhile_suffix p).sublist.subset hm)

theorem breakAt_append {t : Char} {X rest : List Char} (hX : t ∉ X) :
    breakAt t (X ++ t :: rest) = some (X, rest) := by
  induction X with
  | nil => simp [breakAt]
  | cons c cs ih =>
    have hc : c ≠ t := by intro h; exact hX (h ▸ List.mem_cons_self c cs)
    have hcs : t ∉ cs := fun h => hX (List.mem_cons_of_mem c h)
    simp [breakAt, hc, ih hcs]

theorem breakAt_none {t : Char} {l : List Char} (h : t ∉ l) : breakAt t l = none := by
  induction l with
  | nil => rfl
  | cons c cs ih =>
    have hc : c ≠ t := by intro he; exact h (he ▸ List.mem_cons_self c cs)
    have hcs : t ∉ cs := fun hm => h (List.mem_cons_of_mem c hm)
    simp [breakAt, hc, ih hcs]

theorem extractBracket_no_open {l : List Char} (h : '[' ∉ l) : extractBracket l = none := by
  induction l with
  | nil => rfl
  | cons c cs ih =>
    have hc : c ≠ '[' := by intro he; exact h (he ▸ List.mem_cons_self c cs)
    have hcs : '[' ∉ cs := fun hm => h (List.mem_cons_of_mem c hm)
    simp [extractBracket, hc, ih hcs]

theorem extractBracket_bracket {X rest : List Char} (hX : ']' ∉ X) :
    extractBracket ('[' :: (X ++ ']' :: rest)) = some X := by
  simp [extractBracket, breakAt_append hX]

theorem removeBracketWsF_no_open : ∀ (fuel : Nat) {l : List Char},
    '[' ∉ l → removeBracketWsF fuel l = l := by
  intro fuel
  induction fuel with
  | zero => intro l _; rfl
  | succ f ih =>
    intro l h
    match l with
    | [] => rfl
    | c :: cs =>
      have hc : c ≠ '[' := by intro he; exact h (he ▸ List.mem_cons_self c cs)
      have hcs : '[' ∉ cs := fun hm => h (List.mem_cons_of_mem c hm)
      simp [removeBracketWsF, hc, ih hcs]

theorem removeBracketWs_no_open {l : List Char} (h : '[' ∉ l) : removeBracketWs l = l :=
  removeBracketWsF_no_open l.length h

theorem removeBracketWs_bracket {X rest : List Char} (hX : ']' ∉ X) (hr : '[' ∉ rest) :
    removeBracketWs ('[' :: (X ++ ']' :: rest)) = rest.dropWhile isWs := by
  have hdrop : '[' ∉ rest.dropWhile isWs := not_mem_dropWhile hr
  simp [removeBracketWs, removeBracketWsF, breakAt_append hX,
    removeBracketWsF_no_open _ hdrop]

theorem removeParensF_no_open : ∀ (fuel : Nat) {l : List Char},
    '(' ∉ l → removeParensF fuel l = l := by
  intro fuel
  induction fuel with
  | zero => intro l _; rfl
  | succ f ih =>
    intro l h
    match l with
    | [] => rfl
    | c :: cs =>
      have hc : c ≠ '(' := by intro he; exact h (he ▸ List.mem_cons_self c cs)
      have hcs : '(' ∉ cs := fun hm => h (List.mem_cons_of_mem c hm)
      simp [removeParensF, hc, ih hcs]

theorem removeParens_no_open {l : List Char} (h : '(' ∉ l) : removeParens l = l :=
  removeParensF_no_open l.length h

theorem removeParensF_nil : ∀ fuel, removeParensF fuel [] = [] := by
  intro fuel; cases fuel <;> rfl

theorem removeParensF_strip : ∀ {n : List Char} {fuel : Nat} {u : List Char},
    n.length < fuel → '(' ∉ n → ')' ∉ u →
    removeParensF fuel (n ++ '(' :: (u ++ [')'])) = n := by
  intro n
  induction n with
  | nil =>
    intro fuel u hf _ hu
    match fuel, hf with
    | f + 1, _ =>
      simp [removeParensF, breakAt_append hu, removeParensF_nil]
  | cons c m ih =>
    intro fuel u hf hn hu
    have hc : c ≠ '(' := by intro he; exact hn (he ▸ List.mem_cons_self c m)
    have hm : '(' ∉ m := fun hmm => hn (List.mem_cons_of_mem c hmm)
    match fuel, hf with
    | f + 1, hf =>
      have hlt : m.length < f := by simp at hf; omega
      simp [removeParensF, hc, ih hlt hm hu]

theorem removeParens_strip {n u : List Char} (hn : '(' ∉ n) (hu : ')' ∉ u) :
    removeParens (n ++ '(' :: (u ++ [')'])) = n := by
  have : n.length < (n ++ '(' :: (u ++ [')'])).length := by
    simp
  exact removeParensF_strip this hn hu

/-! ### Lemmas about whitespace splitting -/

theorem pySplitAux_tokens : ∀ (l acc : List Char), (∀ c ∈ acc, isWs c = false) →
    ∀ t ∈ pySplitAux l acc, t ≠ [] ∧ ∀ c ∈ t, isWs c = false := by
  intro l
  induction l with
  | nil =>
    intro acc hacc t ht
    by_cases h : acc = []
    · simp [pySplitAux, h] at ht
    · simp [pySplitAux, h] at ht
      subst ht
      refine ⟨by simpa using h, ?_⟩
      intro c hc
      exact hacc c (List.mem_reverse.mp hc)
  | cons c cs ih =>
    intro acc hacc t ht
    by_cases hws : isWs c
    · by_cases h : acc = []
      · simp [pySplitAux, hws, h] at ht
        exact ih [] (by simp) t ht
      · simp [pySplitAux, hws, h] at ht
        rcases ht with ht | ht
        · subst ht
          refine ⟨by simpa using h, ?_⟩
          intro d hd
          exact hacc d (List.mem_reverse.mp hd)
        · exact ih [] (by simp) t ht
    · simp [pySplitAux, hws] at ht
      refine ih (c :: acc) ?_ t ht
      intro d hd
      rcases List.mem_cons.mp hd with hd | hd
      · subst hd; simpa using hws
      · exact hacc d hd

theorem pySplitAux_all_nonws : ∀ (t acc : List Char), (∀ c ∈ t, isWs c = false) →
    pySplitAux t acc = if acc.reverse ++ t = [] then [] else [acc.reverse ++ t] := by
  intro t
  induction t with
  | nil =>
    intro acc _
    by_cases h : acc = []
    · simp [pySplitAux, h]
    · simp [pySplitAux, h]
  | cons c cs ih =>
    intro acc h
    have hc : isWs c = false := h c (List.mem_cons_self c cs)
    have hcs : ∀ d ∈ cs, isWs d = false := fun d hd => h d (List.mem_cons_of_mem c hd)
    simp [pySplitAux, hc, ih (c :: acc) hcs]

theorem pySplit_token {t : List Char} (h1 : t ≠ []) (h2 : ∀ c ∈ t, isWs c = false) :
    pySplitAux t [] = [t] := by
  simp [pySplitAux_all_nonws t [] h2, h1]

theorem splitTwo_token {t : List Char} (h1 : t ≠ []) (h2 : ∀ c ∈ t, isWs c = false) :
    splitTwo (String.mk t) = (some (String.mk t), none) := by
  simp [splitTwo, pySplit, data_mk, pySplit_token h1 h2]

/-! ### Idempotence lemmas for the region and date fields -/

theorem parseDtCell_idem (c : DtCell) : parseDtCell (parseDtCell c) = parseDtCell c := by
  cases c with
  | txt s =>
    cases h : parseYMD s <;> simp [parseDtCell, h]
  | dt d => rfl
  | missing => rfl

theorem fillSido_eq_none {sc : Option (Option String)} {tmp : Option String}
    (h : fillSido sc tmp = none) : tmp = none := by
  match sc with
  | none => exact h
  | some none => exact h
  | some (some v) => simp [fillSido] at h

theorem split_fst_none {sg : Option String} (h : (split_sido_sigungu sg).1 = none) :
    split_sido_sigungu sg = (none, none) := by
  match sg with
  | none => rfl
  | some s =>
    simp only [split_sido_sigungu] at *
    rcases hsp : pySplit s with _ | ⟨a, _ | ⟨b, rest⟩⟩ <;>
      simp [splitTwo, hsp] at h ⊢

theorem sigunguOf_idem (sg : Option String) : sigunguOf (sigunguOf sg) = sigunguOf sg := by
  match sg with
  | none => rfl
  | some s =>
    rcases hsp : pySplitAux s.data [] with _ | ⟨a, _ | ⟨b, rest⟩⟩
    · have h1 : sigunguOf (some s) = some s := by
        simp [sigunguOf, split_sido_sigungu, splitTwo, pySplit, hsp, chooseSigungu]
      rw [h1, h1]
    · have h1 : sigunguOf (some s) = some s := by
        simp [sigunguOf, split_sido_sigungu, splitTwo, pySplit, hsp, chooseSigungu]
      rw [h1, h1]
    · have h1 : sigunguOf (some s) = some (String.mk b) := by
        simp [sigunguOf, split_sido_sigungu, splitTwo, pySplit, hsp, chooseSigungu]
      have hb : b ≠ [] ∧ ∀ c ∈ b, isWs c = false := by
        refine pySplitAux_tokens s.data [] (by simp) b ?_
        rw [hsp]; exact List.mem_cons_of_mem a (List.mem_cons_self b rest)
      have h2 : sigunguOf (some (String.mk b)) = some (String.mk b) := by
        simp [sigunguOf, split_sido_sigungu, splitTwo_token hb.1 hb.2, chooseSigungu]
      rw [h1, h2]

theorem sidoOf_idem (sc : Option (Option String)) (sg : Option String) :
    sidoOf (some (sidoOf sc sg)) (sigunguOf sg) = sidoOf sc sg := by
  cases hv : sidoOf sc sg with
  | some v => simp [sidoOf, fillSido]
  | none =>
    have htmp : (split_sido_sigungu sg).1 = none := fillSido_eq_none hv
    have hsplit := split_fst_none htmp
    have hsig : sigunguOf sg = sg := by
      simp [sigunguOf, hsplit, chooseSigungu]
    rw [hsig]
    simp [sidoOf, fillSido, htmp]

/-! ### Lemmas about the join -/

theorem shMatches_nil {k : Option String} {sh : List ShJoinRow}
    (h : ∀ s ∈ sh, s.careNm ≠ k) : shMatches k sh = [] := by
  rw [shMatches, List.filter_eq_nil_iff]
  intro s hs
  simpa using h s hs

theorem shMatches_length_le_one {k : Option String} {sh : List ShJoinRow}
    (hp : sh.Pairwise (fun s t => s.careNm ≠ t.careNm)) :
    (shMatches k sh).length ≤ 1 := by
  induction sh with
  | nil => simp [shMatches]
  | cons s rest ih =>
    rcases List.pairwise_cons.mp hp with ⟨hs, hrest⟩
    by_cases hm : s.careNm = k
    · have hnil : shMatches k rest = [] :=
        shMatches_nil (fun t ht he => hs t ht (hm.trans he.symm))
      have hcons : shMatches k (s :: rest) = s :: shMatches k rest := by
        simp [shMatches, List.filter_cons, hm]
      rw [hcons, hnil]
      simp
    · have : shMatches k (s :: rest) = shMatches k rest := by
        simp [shMatches, List.filter_cons, hm]
      rw [this]
      exact ih hrest

theorem mergeLeft_map_fst {α : Type} (key : α → Option String) (sh : List ShJoinRow)
    (hp : sh.Pairwise (fun s t => s.careNm ≠ t.careNm)) :
    ∀ ab : List α, (mergeLeft key ab sh).map Prod.fst = ab := by
  intro ab
  induction ab with
  | nil => rfl
  | cons a rest ih =>
    simp only [mergeLeft, List.map_append]
    cases hm : shMatches (key a) sh with
    | nil => simpa using ih
    | cons m ms =>
      have hlen := shMatches_length_le_one (k := key a) hp
      rw [hm] at hlen
      have hms : ms = [] := by
        cases ms with
        | nil => rfl
        | cons x xs =>
          exfalso
          simp [List.length_cons] at hlen
      subst hms
      simpa using ih

theorem mergeLeft_mem_unmatched {α : Type} (key : α → Option String) (sh : List ShJoinRow) :
    ∀ (ab : List α) (a : α), a ∈ ab → (∀ s ∈ sh, s.careNm ≠ key a) →
    (a, (none : Option ShAttrs)) ∈ mergeLeft key ab sh := by
  intro ab
  induction ab with
  | nil => intro a ha; simp at ha
  | cons b rest ih =>
    intro a ha hnm
    rcases List.mem_cons.mp ha with he | hmem
    · subst he
      have h0 : shMatches (key a) sh = [] := shMatches_nil hnm
      simp only [mergeLeft, h0]
      exact List.mem_append_left _ (by simp)
    · simp only [mergeLeft]
      exact List.mem_append_right _ (ih a hmem hnm)

theorem mergeLeft_length {α : Type} (key : α → Option String) (sh : List ShJoinRow) :
    ∀ ab : List α, (mergeLeft key ab sh).length
      = (ab.map (fun a => max 1 (shMatches (key a) sh).length)).sum := by
  intro ab
  induction ab with
  | nil => rfl
  | cons a rest ih =>
    simp only [mergeLeft, List.length_append, List.map_cons, List.sum_cons, ih]
    congr 1
    cases hm : shMatches (key a) sh with
    | nil => simp
    | cons m ms =>
      rw [List.length_map]
      exact (Nat.max_eq_right (by simp)).symm

/-! ### Lemmas about the heap model -/

theorem Heap.read_write_ne {α : Type} (h : Heap α) {r s : Nat} (hne : r ≠ s) (a : α) :
    (h.write r a).read s = h.read s := by
  simp [Heap.read, Heap.write, List.getElem?_set_ne hne]

theorem applySteps_read_ne {α : Type} : ∀ (steps : List (α → α)) (h : Heap α) {r s : Nat},
    r ≠ s → (applySteps steps h r).read s = h.read s := by
  intro steps
  induction steps with
  | nil => intro h r s hne; rfl
  | cons f fs ih =>
    intro h r s hne
    simp only [applySteps]
    rw [ih _ hne]
    cases hr : h.read r with
    | none => rfl
    | some t => exact Heap.read_write_ne h hne (f t)

theorem Heap.read_alloc_lt {α : Type} (h : Heap α) (a : α) {s : Nat}
    (hs : s < h.cells.length) : ((h.alloc a).1).read s = h.read s := by
  simp [Heap.read, Heap.alloc, List.getElem?_append_left hs]

theorem cleanViaCopy_frame {α : Type} [Inhabited α] (steps : List (α → α)) (h : Heap α)
    (src : Nat) (hs : src < h.cells.length) :
    ((cleanViaCopy steps h src).1).read src = h.read src
    ∧ (cleanViaCopy steps h src).2 ≠ src := by
  constructor
  · show (applySteps steps ((h.alloc ((h.read src).getD default)).1) h.cells.length).read src
      = h.read src
    rw [applySteps_read_ne _ _ (by omega)]
    exact Heap.read_alloc_lt h _ hs
  · show h.cells.length ≠ src
    omega

/-! ### Claim C1 -/

/-- C1 counterexample: the claim says an existing non-missing canonical
region value is never overwritten by the derived value, but a record
whose `sigungu` cell holds the non-missing composite value `"a b"` has
it overwritten by line 117 with the derived second token `"b"`. -/
theorem c1_counterexample :
    ({ abRow0 with sigungu := some "a b" } : AbRow).sigungu = some "a b"
    ∧ (cleanAbRow 0 pfree0 { abRow0 with sigungu := some "a b" }).sigungu = some "b" := by
  constructor
  · rfl
  · decide

/-- C1 (amended): derivation from the composite region string never
overwrites an existing explicit value of `sido` (an existing non-missing
`sido` cell is preserved, and the derived first token is used only when
the `sido` column is absent or the cell is missing); `sigungu`, however,
is replaced by the derived second token whenever the whitespace split of
the composite string yields one, the original cell being kept only when
the derivation yields no second token. -/
theorem c1_region_fallback (cy : Int) (pfree : Option String → Option Date) (r : AbRow) :
    (∀ v, r.sidoCol = some (some v) → (cleanAbRow cy pfree r).sidoCol = some (some v))
    ∧ ((r.sidoCol = none ∨ r.sidoCol = some none) →
        (cleanAbRow cy pfree r).sidoCol = some (split_sido_sigungu r.sigungu).1)
    ∧ (∀ t, (split_sido_sigungu r.sigungu).2 = some t →
        (cleanAbRow cy pfree r).sigungu = some t)
    ∧ ((split_sido_sigungu r.sigungu).2 = none →
        (cleanAbRow cy pfree r).sigungu = r.sigungu) := by
  refine ⟨?_, ?_, ?_, ?_⟩
  · intro v hv
    show some (sidoOf r.sidoCol r.sigungu) = some (some v)
    simp [sidoOf, hv, fillSido]
  · intro hv
    show some (sidoOf r.sidoCol r.sigungu) = some (split_sido_sigungu r.sigungu).1
    rcases hv with hv | hv <;> simp [sidoOf, hv, fillSido]
  · intro t ht
    show sigunguOf r.sigungu = some t
    simp [sigunguOf, ht, chooseSigungu]
  · intro ht
    show sigunguOf r.sigungu = r.sigungu
    simp [sigunguOf, ht, chooseSigungu]

/-- C1 witness: a row with an explicit `sido` value keeps it. -/
theorem c1_witness :
    (cleanAbRow 0 pfree0
        { abRow0 with sidoCol := some (some "X"), sigungu := some "p q" }).sidoCol
      = some (some "X") :=
  (c1_region_fallback 0 pfree0 _).1 "X" rfl

/-! ### Claim C2 -/

/-- C2 counterexample: the claim says a composite string with no
bracketed prefix yields a missing species and an unchanged breed, but
the regex at line 65 is not anchored: `"a [b]"` starts with `'a'`, not
with a bracket, yet the extracted species is `"b"` (and the breed drops
the bracketed part). -/
theorem c2_counterexample :
    "a [b]".data.head? = some 'a'
    ∧ (cleanAbRow 0 pfree0 { abRow0 with raw := some [("kindFullNm", "a [b]")] }).species
        = some "b"
    ∧ (cleanAbRow 0 pfree0 { abRow0 with raw := some [("kindFullNm", "a [b]")] }).breed
        = some "a " := by
  refine ⟨rfl, by decide, by decide⟩

/-- C2 (amended): for a composite species string `[X] Y` (`X` free of a
closing bracket, the remainder free of an opening bracket), the species
is `X` and the breed is the remainder with the whitespace that
immediately follows the bracket stripped; for a string containing no
opening bracket at all — not merely no bracketed prefix — the species is
missing and the breed is the input unchanged. -/
theorem c2_species_breed (cy : Int) (pfree : Option String → Option Date) (r : AbRow) :
    (∀ X rest, rawGet r.raw "kindFullNm" = some (String.mk ('[' :: (X ++ ']' :: rest))) →
        ']' ∉ X → '[' ∉ rest →
        (cleanAbRow cy pfree r).species = some (String.mk X)
        ∧ (cleanAbRow cy pfree r).breed = some (String.mk (rest.dropWhile isWs)))
    ∧ (∀ s, rawGet r.raw "kindFullNm" = some s → '[' ∉ s.data →
        (cleanAbRow cy pfree r).species = none
        ∧ (cleanAbRow cy pfree r).breed = some s) := by
  constructor
  · intro X rest hk hX hrest
    constructor
    · show speciesOf r.raw = some (String.mk X)
      simp [speciesOf, hk, data_mk, extractBracket_bracket hX]
    · show breedOf r.raw = some (String.mk (rest.dropWhile isWs))
      simp [breedOf, hk, data_mk, removeBracketWs_bracket hX hrest]
  · intro s hk hs
    constructor
    · show speciesOf r.raw = none
      simp [speciesOf, hk, extractBracket_no_open hs]
    · show breedOf r.raw = some s
      simp [breedOf, hk, removeBracketWs_no_open hs, mk_data]

/-- C2 witness: `"[dog] mix"` splits into species `"dog"`, breed `"mix"`. -/
theorem c2_witness :
    (cleanAbRow 0 pfree0 { abRow0 with raw := some [("kindFullNm", "[dog] mix")] }).species
      = some "dog"
    ∧ (cleanAbRow 0 pfree0 { abRow0 with raw := some [("kindFullNm", "[dog] mix")] }).breed
      = some "mix" := by
  have h := (c2_species_breed 0 pfree0
      { abRow0 with raw := some [("kindFullNm", "[dog] mix")] }).1
    ['d', 'o', 'g'] [' ', 'm', 'i', 'x'] (by decide) (by decide) (by decide)
  refine ⟨?_, ?_⟩
  · rw [h.1]
  · rw [h.2]
    decide

/-! ### Claim C3 -/

/-- C3 counterexample: the claim says a raw weight string without a
trailing parenthetical is passed unchanged to numeric coercion, but the
regex at line 77 strips parenthesized groups anywhere: `"(kg)7"` has no
trailing parenthetical, coercing it unchanged would give a missing
value, yet the cleaned weight is `7`. -/
theorem c3_counterexample :
    (cleanAbRow 0 pfree0 { abRow0 with raw := some [("weight", "(kg)7")] }).weight = some 7
    ∧ parseDecimal "(kg)7".data = none := by
  constructor <;> decide

/-- C3 (amended): a raw weight of the form `<number>(<unit>)` cleans to
`<number>` parsed as a number; a raw weight string containing no
parenthesized group anywhere — not merely no trailing one — is passed
unchanged to numeric coercion; a string that is empty after stripping
parenthesized groups (in particular the empty string) gives a missing
value, as does an absent raw weight; no input raises. -/
theorem c3_weight (cy : Int) (pfree : Option String → Option Date) (r : AbRow) :
    (∀ num unit q,
        rawGet r.raw "weight" = some (String.mk (num ++ '(' :: (unit ++ [')']))) →
        '(' ∉ num → ')' ∉ unit → parseDecimal num = some q →
        (cleanAbRow cy pfree r).weight = some q)
    ∧ (∀ s, rawGet r.raw "weight" = some s → '(' ∉ s.data → s.data ≠ [] →
        (cleanAbRow cy pfree r).weight = parseDecimal s.data)
    ∧ (∀ s, rawGet r.raw "weight" = some s → removeParens s.data = [] →
        (cleanAbRow cy pfree r).weight = none)
    ∧ (rawGet r.raw "weight" = none → (cleanAbRow cy pfree r).weight = none) := by
  refine ⟨?_, ?_, ?_, ?_⟩
  · intro num unit q hw hnum hunit hq
    have hne : num ≠ [] := by
      intro h0
      rw [h0] at hq
      simp [parseDecimal, parseUnsigned] at hq
    show weightOf r.raw = some q
    simp [weightOf, hw, astypeStrPy, data_mk, removeParens_strip hnum hunit, hne, hq]
  · intro s hw hs hne
    show weightOf r.raw = parseDecimal s.data
    simp [weightOf, hw, astypeStrPy, removeParens_no_open hs, hne]
  · intro s hw h0
    show weightOf r.raw = none
    simp [weightOf, hw, astypeStrPy, h0]
  · intro hw
    show weightOf r.raw = none
    rw [weightOf, hw]
    decide

/-- C3 witness: `"7(Kg)"` cleans to the number 7. -/
theorem c3_witness :
    (cleanAbRow 0 pfree0 { abRow0 with raw := some [("weight", "7(Kg)")] }).weight
      = some 7 :=
  (c3_weight 0 pfree0 { abRow0 with raw := some [("weight", "7(Kg)")] }).1
    ['7'] ['K', 'g'] 7 (by decide) (by decide) (by decide) (by decide)

/-! ### Claim C4 -/

/-- C4: the Normalizer is idempotent — re-running `clean_abandonments`
on its own output reproduces every derived field (date, weight, species,
breed, sex, neuter, region, and the calendar fields) unchanged; in fact
the whole cleaned record is a fixed point of the cleaning, for any
current year and any free-format date parser. -/
theorem c4_idempotent (cy : Int) (pfree : Option String → Option Date) (r : AbRow) :
    cleanAbRow cy pfree (cleanAbRow cy pfree r) = cleanAbRow cy pfree r := by
  cases r
  simp [cleanAbRow, parseDtCell_idem, sidoOf_idem, sigunguOf_idem]

/-! ### Claim C5 -/

/-- C5: the left join preserves event rows — when no two shelter rows
share a `careNm` key, the event parts of the joined table are exactly
the pre-join event rows, in order (each appears exactly once); an event
with no matching shelter row is retained, with all its original fields,
paired with missing shelter attributes; and in general the joined table
has one row per matching shelter row for each event (at least one), so
duplicated keys fan out and no event row is ever dropped. -/
theorem c5_left_join {α : Type} (key : α → Option String) (ab : List α)
    (sh : List ShJoinRow) :
    (sh.Pairwise (fun s t => s.careNm ≠ t.careNm) →
        (mergeLeft key ab sh).map Prod.fst = ab)
    ∧ (∀ a ∈ ab, (∀ s ∈ sh, s.careNm ≠ key a) →
        (a, (none : Option ShAttrs)) ∈ mergeLeft key ab sh)
    ∧ (mergeLeft key ab sh).length
        = (ab.map (fun a => max 1 (shMatches (key a) sh).length)).sum :=
  ⟨fun hp => mergeLeft_map_fst key sh hp ab,
   fun a ha hnm => mergeLeft_mem_unmatched key sh ab a ha hnm,
   mergeLeft_length key sh ab⟩

/-- C5 witness: a two-event table joined against a one-shelter table
with a unique key keeps both event rows, in order. -/
theorem c5_witness :
    (mergeLeft id [some "a", none] [⟨some "a", shAttrs0⟩]).map Prod.fst
      = [some "a", none] :=
  (c5_left_join id [some "a", none] [⟨some "a", shAttrs0⟩]).1 (by simp)

/-! ### Claim C6 -/

/-- C6 counterexample: `"16000101"` is an 8-digit `YYYYMMDD` string
denoting a valid calendar date, so the claim requires month 1, the
weekday name and season Winter; but the date lies outside the
representable nanosecond-timestamp range, `errors="coerce"` turns it to
`NaT`, and all three derived fields come out missing. -/
theorem c6_counterexample :
    specYYYYMMDDForm "16000101"
    ∧ (cleanAbRow 0 pfree0 { abRow0 with happenDt := .txt "16000101" }).month = none
    ∧ (cleanAbRow 0 pfree0 { abRow0 with happenDt := .txt "16000101" }).weekday = none
    ∧ (cleanAbRow 0 pfree0 { abRow0 with happenDt := .txt "16000101" }).season = none := by
  refine ⟨by decide, by decide, by decide, by decide⟩

/-- C6 (amended): for every event-date string the date parser accepts —
an 8-digit `YYYYMMDD` digit string denoting a valid calendar date within
the supported timestamp range (1677-09-22 through 2262-04-11) — the
derived month is the date's month, the weekday is the date's full
weekday name, and the season follows the fixed lookup (months 3-5
Spring, 6-8 Summer, 9-11 Fall, 12-2 Winter), all from the same parsed
date; for every malformed, out-of-range or absent date, month, weekday
and season are all missing. -/
theorem c6_calendar (cy : Int) (pfree : Option String → Option Date) (r : AbRow) :
    (∀ s d, r.happenDt = DtCell.txt s → parseYMD s = some d →
        (cleanAbRow cy pfree r).month = some d.m
        ∧ (cleanAbRow cy pfree r).weekday = some (dayName d)
        ∧ (cleanAbRow cy pfree r).season = get_season (some d.m)
        ∧ (3 ≤ d.m ∧ d.m ≤ 5 → (cleanAbRow cy pfree r).season = some "Spring")
        ∧ (6 ≤ d.m ∧ d.m ≤ 8 → (cleanAbRow cy pfree r).season = some "Summer")
        ∧ (9 ≤ d.m ∧ d.m ≤ 11 → (cleanAbRow cy pfree r).season = some "Fall")
        ∧ ((d.m = 12 ∨ d.m ≤ 2) → (cleanAbRow cy pfree r).season = some "Winter"))
    ∧ (∀ s, r.happenDt = DtCell.txt s → parseYMD s = none →
        (cleanAbRow cy pfree r).month = none
        ∧ (cleanAbRow cy pfree r).weekday = none
        ∧ (cleanAbRow cy pfree r).season = none)
    ∧ (r.happenDt = DtCell.missing →
        (cleanAbRow cy pfree r).month = none
        ∧ (cleanAbRow cy pfree r).weekday = none
        ∧ (cleanAbRow cy pfree r).season = none) := by
  refine ⟨?_, ?_, ?_⟩
  · intro s d hs hd
    have hcell : parseDtCell r.happenDt = DtCell.dt d := by
      simp [parseDtCell, hs, hd]
    refine ⟨?_, ?_, ?_, ?_, ?_, ?_, ?_⟩
    · show monthOf (parseDtCell r.happenDt) = some d.m
      simp [hcell, monthOf]
    · show weekdayOf (parseDtCell r.happenDt) = some (dayName d)
      simp [hcell, weekdayOf]
    · show get_season (monthOf (parseDtCell r.happenDt)) = get_season (some d.m)
      simp [hcell, monthOf]
    · intro hm
      show get_season (monthOf (parseDtCell r.happenDt)) = some "Spring"
      have : d.m = 3 ∨ d.m = 4 ∨ d.m = 5 := by omega
      rcases this with h | h | h <;> simp [hcell, monthOf, get_season, h]
    · intro hm
      show get_season (monthOf (parseDtCell r.happenDt)) = some "Summer"
      have : d.m = 6 ∨ d.m = 7 ∨ d.m = 8 := by omega
      rcases this with h | h | h <;> simp [hcell, monthOf, get_season, h]
    · intro hm
      show get_season (monthOf (parseDtCell r.happenDt)) = some "Fall"
      have : d.m = 9 ∨ d.m = 10 ∨ d.m = 11 := by omega
      rcases this with h | h | h <;> simp [hcell, monthOf, get_season, h]
    · intro hm
      show get_season (monthOf (parseDtCell r.happenDt)) = some "Winter"
      have hne : ¬(d.m = 3 ∨ d.m = 4 ∨ d.m = 5) ∧ ¬(d.m = 6 ∨ d.m = 7 ∨ d.m = 8)
          ∧ ¬(d.m = 9 ∨ d.m = 10 ∨ d.m = 11) := by omega
      simp [hcell, monthOf, get_season, hne.1, hne.2.1, hne.2.2]
  · intro s hs hd
    have hcell : parseDtCell r.happenDt = DtCell.missing := by
      simp [parseDtCell, hs, hd]
    refine ⟨?_, ?_, ?_⟩
    · show monthOf (parseDtCell r.happenDt) = none
      simp [hcell, monthOf]
    · show weekdayOf (parseDtCell r.happenDt) = none
      simp [hcell, weekdayOf]
    · show get_season (monthOf (parseDtCell r.happenDt)) = none
      simp [hcell, monthOf, get_season]
  · intro hs
    have hcell : parseDtCell r.happenDt = DtCell.missing := by
      simp [parseDtCell, hs]
    refine ⟨?_, ?_, ?_⟩
    · show monthOf (parseDtCell r.happenDt) = none
      simp [hcell, monthOf]
    · show weekdayOf (parseDtCell r.happenDt) = none
      simp [hcell, weekdayOf]
    · show get_season (monthOf (parseDtCell r.happenDt)) = none
      simp [hcell, monthOf, get_season]

/-- C6 witness: `"20230115"` gives month 1, weekday Sunday, season
Winter. -/
theorem c6_witness :
    (cleanAbRow 0 pfree0 { abRow0 with happenDt := .txt "20230115" }).month = some 1
    ∧ (cleanAbRow 0 pfree0 { abRow0 with happenDt := .txt "20230115" }).weekday
        = some "Sunday"
    ∧ (cleanAbRow 0 pfree0 { abRow0 with happenDt := .txt "20230115" }).season
        = some "Winter" := by
  have h := (c6_calendar 0 pfree0 { abRow0 with happenDt := .txt "20230115" }).1
    "20230115" ⟨2023, 1, 15⟩ rfl (by decide)
  refine ⟨h.1, ?_, ?_⟩
  · rw [h.2.1]
    decide
  · exact h.2.2.2.2.2.2 (Or.inr (by decide))

/-! ### Claim C7 -/

/-- C7: a registration record from a table with none of the optional
canonical columns, whose raw payload carries the keys `CTPV`, `SGG`,
`BRDT` and `CNT`, gets `sido` from `CTPV`, `sigungu` from `SGG`,
`birthYear` from `BRDT` coerced to a number, and `count` from `CNT`
coerced to a number. -/
theorem c7_registration_backfill (r : RegRow) (c g b n : String)
    (hs : r.sidoCol = none) (hg : r.sigunguCol = none) (hb : r.birthYearCol = none)
    (hr : r.rfidTypeCol = none) (hk : r.kindCol = none) (hsp : r.speciesCol = none)
    (hc : r.countCol = none)
    (h1 : rawGet r.raw "CTPV" = some c) (h2 : rawGet r.raw "SGG" = some g)
    (h3 : rawGet r.raw "BRDT" = some b) (h4 : rawGet r.raw "CNT" = some n) :
    (clean_registrations_row r).sido = some c
    ∧ (clean_registrations_row r).sigungu = some g
    ∧ (clean_registrations_row r).birthYear = parseDecimal b.data
    ∧ (clean_registrations_row r).count = parseDecimal n.data := by
  refine ⟨?_, ?_, ?_, ?_⟩ <;>
    simp [clean_registrations_row, hs, hg, hb, hr, hk, hsp, hc, h1, h2, h3, h4, parseNumCell]

/-- C7 witness: the sample registration record backfills all four
fields from its raw payload. -/
theorem c7_witness :
    (clean_registrations_row regRow7).sido = some "Seoul"
    ∧ (clean_registrations_row regRow7).sigungu = some "Gangnam"
    ∧ (clean_registrations_row regRow7).birthYear = some 2016
    ∧ (clean_registrations_row regRow7).count = some 2 := by
  have h := c7_registration_backfill regRow7 "Seoul" "Gangnam" "2016" "2"
    rfl rfl rfl rfl rfl rfl rfl (by decide) (by decide) (by decide) (by decide)
  refine ⟨h.1, h.2.1, ?_, ?_⟩
  · rw [h.2.2.1]
    decide
  · rw [h.2.2.2]
    decide

/-! ### Claim C8 -/

/-- C8 counterexample: the claim says an Analyzer routine skips (with a
notice) any analysis whose column is absent, but `analyze_correlations`
on a table that lacks only the `sex` column raises a `KeyError` at the
sex-by-outcome crosstab instead of skipping it — and `sex` is not one of
the fatal absences (store, file, process-outcome label) the claim
excepts. -/
theorem c8_counterexample :
    analyze_correlations
      ["age", "weight", "month", "processState", "neuter", "species", "season"]
      = .error "sex" := by
  rfl

/-- C8 (amended): only two analyses guard against absent columns — the
yearly block of the time-series routine is skipped with a notice when
`year` is absent (the monthly block still runs when `month`, `uid` and
`processState` exist), and the numeric-correlation block is skipped with
a notice when none of `age`, `weight`, `month` exists (the crosstabs
still run when their columns exist); any other absent dependent column
raises a `KeyError`, as `analyze_spatial` does on a table without
`sido`. -/
theorem c8_missing_column (cols1 cols2 cols3 : List String) :
    ("year" ∉ cols1 → "month" ∈ cols1 → "uid" ∈ cols1 → "processState" ∈ cols1 →
        analyze_time_series cols1
          = .ok ["year-skip-notice", "monthly-counts", "month-state-counts"])
    ∧ ("age" ∉ cols2 → "weight" ∉ cols2 → "month" ∉ cols2 → "sex" ∈ cols2 →
        "processState" ∈ cols2 → "neuter" ∈ cols2 → "species" ∈ cols2 →
        "season" ∈ cols2 →
        analyze_correlations cols2
          = .ok ["corr-skip-notice", "sex-state-crosstab", "neuter-state-crosstab",
              "species-season-crosstab"])
    ∧ ("sido" ∉ cols3 → analyze_spatial cols3 = .error "sido") := by
  refine ⟨?_, ?_, ?_⟩
  · intro h1 h2 h3 h4
    simp [analyze_time_series, runSection, h1, h2, h3, h4, List.find?]
  · intro h1 h2 h3 h4 h5 h6 h7 h8
    simp [analyze_correlations, runSection, h1, h2, h3, h4, h5, h6, h7, h8, List.find?,
      List.filter]
  · intro h1
    simp [analyze_spatial, runSection, h1, List.find?]

/-- C8 witness: a table with only the monthly columns runs the
time-series routine to completion, skipping the yearly block with a
notice. -/
theorem c8_witness :
    analyze_time_series ["month", "uid", "processState"]
      = .ok ["year-skip-notice", "monthly-counts", "month-state-counts"] :=
  (c8_missing_column ["month", "uid", "processState"] [] []).1
    (by decide) (by decide) (by decide) (by decide)

/-! ### Claim C9 -/

/-- C9: a shelter record whose `careAddr` cell is missing is first
coerced by `astype(str)` to the literal string `"nan"`, so the derived
`sido` is the string `"nan"` and `sigungu` is missing — the region
fields are not both missing, and the non-string branch of `split_addr`
is never reached for shelter addresses. -/
theorem c9_shelter_nan_addr (pfree : Option String → Option Date) (r : ShRow)
    (h : r.careAddr = none) :
    (clean_shelters_row pfree r).careAddr = "nan"
    ∧ (clean_shelters_row pfree r).sido = some "nan"
    ∧ (clean_shelters_row pfree r).sigungu = none := by
  refine ⟨?_, ?_, ?_⟩
  · show astypeStrCell r.careAddr = "nan"
    rw [h]
    rfl
  · show (split_addr (PyVal.str (astypeStrCell r.careAddr))).1 = some "nan"
    rw [h]
    decide
  · show (split_addr (PyVal.str (astypeStrCell r.careAddr))).2 = none
    rw [h]
    decide

/-- C9 witness: the all-missing shelter row. -/
theorem c9_witness :
    (clean_shelters_row pfree0 shRow0).careAddr = "nan"
    ∧ (clean_shelters_row pfree0 shRow0).sido = some "nan"
    ∧ (clean_shelters_row pfree0 shRow0).sigungu = none :=
  c9_shelter_nan_addr pfree0 shRow0 rfl

/-! ### Claim C10 -/

/-- C10: each of the three cleaners operates on a copy — run on a heap
of tables, the cleaner allocates a fresh reference for `df.copy()`,
mutates only that copy, and so the caller's table at the source
reference is unchanged after the call (and the returned reference is a
different one). -/
theorem c10_input_preserved (cy : Int) (pfree : Option String → Option Date)
    (h1 : Heap (List AbRow)) (s1 : Nat)
    (h2 : Heap (List RegRow × List RegOut)) (s2 : Nat)
    (h3 : Heap (List ShRow × List ShOut)) (s3 : Nat) :
    (s1 < h1.cells.length →
        ((clean_abandonments_prog cy pfree h1 s1).1).read s1 = h1.read s1
        ∧ (clean_abandonments_prog cy pfree h1 s1).2 ≠ s1)
    ∧ (s2 < h2.cells.length →
        ((clean_registrations_prog h2 s2).1).read s2 = h2.read s2
        ∧ (clean_registrations_prog h2 s2).2 ≠ s2)
    ∧ (s3 < h3.cells.length →
        ((clean_shelters_prog pfree h3 s3).1).read s3 = h3.read s3
        ∧ (clean_shelters_prog pfree h3 s3).2 ≠ s3) :=
  ⟨fun hs => cleanViaCopy_frame _ h1 s1 hs,
   fun hs => cleanViaCopy_frame _ h2 s2 hs,
   fun hs => cleanViaCopy_frame _ h3 s3 hs⟩

/-- C10 witness: a one-table heap is unchanged at the source reference
by `clean_abandonments`, which returns a different reference. -/
theorem c10_witness :
    ((clean_abandonments_prog 0 pfree0 ⟨[[]]⟩ 0).1).read 0 = Heap.read ⟨[[]]⟩ 0
    ∧ (clean_abandonments_prog 0 pfree0 ⟨[[]]⟩ 0).2 ≠ 0 :=
  (c10_input_preserved 0 pfree0 ⟨[[]]⟩ 0 ⟨[]⟩ 0 ⟨[]⟩ 0).1 (by decide)

end PetEda
